import Mathlib

/-!
Verification of the langgraph-agents repository against its natural-language
specification.  The Lean definitions below are a shallow embedding of the
Python source: pure helper functions become Lean functions, the LangGraph
node functions become functions on explicit state records, LLM calls become
abstract function parameters (`Option`/`Except` valued, so that a raised
exception is a `none`/`.error`), and the filesystem becomes an explicit map
from path to optional content.
-/

/-! ## Python string helpers

`pyIsSpace` models the ASCII whitespace set removed by Python's `str.strip`
(space, tab, newline, carriage return, vertical tab, form feed).
`pyStrip` models `str.strip()`, `pyUpper` models `str.upper()` (the strings
compared in the source, such as "APPROVED", are ASCII, where `Char.toUpper`
agrees with Python). -/

def pyIsSpace (c : Char) : Bool :=
  c == ' ' || c == '\t' || c == '\n' || c == '\r' ||
    c == Char.ofNat 11 || c == Char.ofNat 12

/-- The list-of-characters form of `str.strip`: drop whitespace from the
front, then from the back (implemented by reversing). -/
def stripList (l : List Char) : List Char :=
  ((l.dropWhile pyIsSpace).reverse.dropWhile pyIsSpace).reverse

/-- Model of Python `str.strip()`. -/
def pyStrip (s : String) : String := ⟨stripList s.data⟩

/-- Model of Python `str.upper()` (ASCII). -/
def pyUpper (s : String) : String := ⟨s.data.map Char.toUpper⟩

theorem dropWhile_dropWhile (p : α → Bool) (l : List α) :
    (l.dropWhile p).dropWhile p = l.dropWhile p := by
  induction l with
  | nil => rfl
  | cons a t ih =>
    cases h : p a <;> simp [List.dropWhile_cons, h, ih]

theorem head?_dropWhile_false (p : α → Bool) (l : List α) :
    ∀ a, (l.dropWhile p).head? = some a → p a = false := by
  induction l with
  | nil => intro a h; simp at h
  | cons b t ih =>
    intro a h
    rw [List.dropWhile_cons] at h
    cases hb : p b with
    | false =>
      rw [hb] at h
      simp at h
      rw [← h]
      exact hb
    | true =>
      rw [hb] at h
      simp at h
      exact ih a h

theorem getLast?_dropWhile (p : α → Bool) (l : List α) :
    l.dropWhile p = [] ∨ (l.dropWhile p).getLast? = l.getLast? := by
  induction l with
  | nil => left; rfl
  | cons a t ih =>
    cases h : p a with
    | false =>
      right
      simp [List.dropWhile_cons, h]
    | true =>
      by_cases hd : List.dropWhile p t = []
      · left
        simpa [List.dropWhile_cons, h] using hd
      · right
        have heq := ih.resolve_left hd
        have ht : t ≠ [] := by
          intro hnil
          rw [hnil] at hd
          exact hd rfl
        simp only [List.dropWhile_cons, h, if_true]
        rw [heq]
        cases t with
        | nil => exact absurd rfl ht
        | cons b t' => exact (List.getLast?_cons_cons ..).symm

theorem dropWhile_eq_self_of_head? (p : α → Bool) (l : List α)
    (h : ∀ a, l.head? = some a → p a = false) : l.dropWhile p = l := by
  cases l with
  | nil => rfl
  | cons a t =>
    have := h a (by simp)
    simp [List.dropWhile_cons, this]

theorem stripList_idem (l : List Char) : stripList (stripList l) = stripList l := by
  unfold stripList
  set a := l.dropWhile pyIsSpace with ha
  set m := a.reverse.dropWhile pyIsSpace with hm
  have hfix : m.reverse.dropWhile pyIsSpace = m.reverse := by
    apply dropWhile_eq_self_of_head?
    intro x hx
    rw [List.head?_reverse] at hx
    rcases getLast?_dropWhile pyIsSpace a.reverse with h0 | heq
    · rw [← hm] at h0; rw [h0] at hx; simp at hx
    · rw [← hm] at heq
      rw [heq, List.getLast?_reverse] at hx
      exact head?_dropWhile_false pyIsSpace l x hx
  rw [hfix, List.reverse_reverse, hm, dropWhile_dropWhile]

theorem pyStrip_idem (s : String) : pyStrip (pyStrip s) = pyStrip s :=
  congrArg String.mk (stripList_idem s.data)

/-! ## core/tools/summarization.py -/

/-- `TOKEN_THRESHOLD_MASSIVE = 50000` (above this, HIERARCHICAL is forced). -/
def TOKEN_THRESHOLD_MASSIVE : Nat := 50000

/-- `TOKEN_THRESHOLD_LONG = 2000` (below this, direct summarization). -/
def TOKEN_THRESHOLD_LONG : Nat := 2000

/-- `MAX_REVISION_COUNT = 2`. -/
def MAX_REVISION_COUNT : Nat := 2

/-- `PREVIEW_TOKEN_COUNT = 1000`. -/
def PREVIEW_TOKEN_COUNT : Nat := 1000

/-- `count_tokens(text, chars_per_token=4.0)`: `0` for falsy (empty) text,
otherwise `int(len(text) / 4.0)`.  Division of a length by `4.0` is exact in
double precision for every representable document length, and `int` truncates
the nonnegative quotient downward, so the result is natural-number division
by 4. -/
def count_tokens (text : String) : Nat :=
  if text = "" then 0 else text.length / 4

/-- The metadata record built by `get_doc_metadata`. -/
structure DocMetadata where
  char_count : Nat
  estimated_tokens : Nat
  line_count : Nat
  paragraph_count : Nat
  deriving Repr, DecidableEq

/-- `get_doc_metadata(text)`: all-zero record for empty text; otherwise
character count, estimated tokens, `len(text.split("\n"))` lines and the
number of `"\n\n"`-separated blocks that are nonempty after stripping. -/
def get_doc_metadata (text : String) : DocMetadata :=
  if text = "" then ⟨0, 0, 0, 0⟩
  else
    { char_count := text.length
      estimated_tokens := count_tokens text
      line_count := (text.splitOn "\n").length
      paragraph_count :=
        ((text.splitOn "\n\n").filter (fun p => pyStrip p != "")).length }

/-! ## core/agents/summarization.py : router node and post-router routing

The single LLM call made in the middle branch of `_router_node` (model
invocation followed by `_parse_router_response` and the `.get` defaults) is
abstracted as `llmPlan : String → Option (String × String × String)`
returning `(content_type, selected_strategy, summary_focus)`; `none` models
a raised exception, which the source catches with a fallback to MAP_REDUCE.
The `llm_called` flag records whether that branch invoked the model. -/

/-- The partial state update returned by `_router_node`, plus the
`llm_called` instrumentation flag. -/
structure RouterResult where
  doc_metadata : DocMetadata
  content_type : String
  selected_strategy : String
  summary_focus : String
  revision_count : Nat
  llm_called : Bool
  deriving Repr

/-- `SummarizationAgent._router_node`. -/
def router_node (llmPlan : String → Option (String × String × String))
    (original_text : String) : RouterResult :=
  let metadata := get_doc_metadata original_text
  let tokens := metadata.estimated_tokens
  if tokens < TOKEN_THRESHOLD_LONG then
    { doc_metadata := metadata
      content_type := "informational"
      selected_strategy := "MAP_REDUCE"
      summary_focus := "Capture all key points concisely."
      revision_count := 0
      llm_called := false }
  else if tokens ≥ TOKEN_THRESHOLD_MASSIVE then
    { doc_metadata := metadata
      content_type := "massive_dataset"
      selected_strategy := "HIERARCHICAL"
      summary_focus := "Extract and organize key information from this large document."
      revision_count := 0
      llm_called := false }
  else
    match llmPlan original_text with
    | some (ct, strat, focus) =>
      { doc_metadata := metadata
        content_type := ct
        selected_strategy := strat
        summary_focus := focus
        revision_count := 0
        llm_called := true }
    | none =>
      { doc_metadata := metadata
        content_type := "informational"
        selected_strategy := "MAP_REDUCE"
        summary_focus := "Extract main ideas and key points."
        revision_count := 0
        llm_called := true }

/-- `SummarizationAgent._route_after_router`, reading the merged state's
`doc_metadata.estimated_tokens`. -/
def route_after_router (metadata : DocMetadata) : String :=
  if metadata.estimated_tokens < TOKEN_THRESHOLD_LONG then "direct" else "chunk"

theorem get_doc_metadata_tokens (text : String) :
    (get_doc_metadata text).estimated_tokens = count_tokens text := by
  unfold get_doc_metadata
  by_cases h : text = "" <;> simp [h, count_tokens]

/-! ## core/agents/summarization.py : reflect / revise loop

`SummarizationState` restricted to the fields the reflection loop reads and
writes.  The two LLM calls are abstracted as functions from the current
state to `Option String` (`none` models a raised exception, which the
source catches). -/

/-- The reflection-loop fragment of `SummarizationState`.  `final_output`
is `none` while the `"final_output"` key is absent from the state dict. -/
structure ReflState where
  original_text : String
  summary_focus : String
  draft_summary : String
  critique_feedback : String
  revision_count : Nat
  final_output : Option String
  deriving Repr

/-- `SummarizationAgent._reflect_node`: stores the stripped critique (or the
literal `"APPROVED"` if the model call raised) and, when the critique
uppercases to `"APPROVED"`, also stores the draft as `final_output`. -/
def reflect_node (reflectM : ReflState → Option String) (s : ReflState) : ReflState :=
  let critique :=
    match reflectM s with
    | some content => pyStrip content
    | none => "APPROVED"
  { s with
    critique_feedback := critique
    final_output :=
      if pyUpper critique = "APPROVED" then some s.draft_summary else s.final_output }

/-- `SummarizationAgent._revise_node`: increments the revision counter,
rewrites the draft (keeping the old draft if the model call raised) and
unconditionally writes the revised draft into `final_output`. -/
def revise_node (reviseM : ReflState → Option String) (s : ReflState) : ReflState :=
  let revised :=
    match reviseM s with
    | some content => content
    | none => s.draft_summary
  { s with
    draft_summary := revised
    revision_count := s.revision_count + 1
    final_output := some revised }

/-- `SummarizationAgent._route_after_reflection`: `"end"` when the stripped,
uppercased critique equals `"APPROVED"` or the revision counter has reached
`MAX_REVISION_COUNT`, else `"revise"`. -/
def route_after_reflection (s : ReflState) : String :=
  if pyUpper (pyStrip s.critique_feedback) = "APPROVED" ∨
      s.revision_count ≥ MAX_REVISION_COUNT then "end" else "revise"

/-- The `reflect_node → {revise_node → reflect_node}*` loop of the compiled
graph, entered on a state just produced by `reflect_node`.  `fuel` bounds the
number of loop unfoldings only so that the function is total; the theorems
show the loop stops (routes to `"end"`) long before any sufficiently large
fuel runs out.  Returns the final state and the number of times
`revise_node` executed. -/
def reflectLoop (reflectM reviseM : ReflState → Option String) :
    Nat → ReflState → ReflState × Nat
  | 0, s => (s, 0)
  | fuel + 1, s =>
    if route_after_reflection s = "end" then (s, 0)
    else
      let s' := reflect_node reflectM (revise_node reviseM s)
      let r := reflectLoop reflectM reviseM fuel s'
      (r.1, r.2 + 1)

theorem reflect_node_revision_count (m : ReflState → Option String) (s : ReflState) :
    (reflect_node m s).revision_count = s.revision_count := by
  unfold reflect_node
  cases m s <;> rfl

theorem revise_node_revision_count (m : ReflState → Option String) (s : ReflState) :
    (revise_node m s).revision_count = s.revision_count + 1 := by
  unfold revise_node
  cases m s <;> rfl

theorem reflect_node_final_isSome (m : ReflState → Option String) (s : ReflState)
    (h : s.final_output.isSome) : (reflect_node m s).final_output.isSome := by
  unfold reflect_node
  cases m s <;> simp only [] <;> split <;> simp [h]

theorem revise_node_final_isSome (m : ReflState → Option String) (s : ReflState) :
    (revise_node m s).final_output.isSome := by
  unfold revise_node
  cases m s <;> rfl

/-- If the router does not end the loop, the counter is still below the
maximum. -/
theorem route_not_end_lt (s : ReflState) (h : route_after_reflection s ≠ "end") :
    s.revision_count < MAX_REVISION_COUNT := by
  unfold route_after_reflection at h
  by_cases hc : pyUpper (pyStrip s.critique_feedback) = "APPROVED" ∨
      s.revision_count ≥ MAX_REVISION_COUNT
  · exact absurd (if_pos hc) h
  · push_neg at hc
    exact hc.2

/-- If the router ends the loop, the critique is approved or the counter has
reached the maximum. -/
theorem route_end_cases (s : ReflState) (h : route_after_reflection s = "end") :
    pyUpper (pyStrip s.critique_feedback) = "APPROVED" ∨
      s.revision_count ≥ MAX_REVISION_COUNT := by
  unfold route_after_reflection at h
  by_cases hc : pyUpper (pyStrip s.critique_feedback) = "APPROVED" ∨
      s.revision_count ≥ MAX_REVISION_COUNT
  · exact hc
  · rw [if_neg hc] at h
    exact absurd h (by decide)

/-- The critique stored by `reflect_node` is already stripped, so stripping
it again is the identity. -/
theorem reflect_node_critique_stripped (m : ReflState → Option String) (s : ReflState) :
    pyStrip (reflect_node m s).critique_feedback = (reflect_node m s).critique_feedback := by
  unfold reflect_node
  cases m s with
  | none => simp only []; decide
  | some content => simp only []; exact pyStrip_idem content

/-- If the critique stored by `reflect_node` uppercases to APPROVED, the node
set `final_output`. -/
theorem reflect_node_approved_final (m : ReflState → Option String) (s : ReflState)
    (h : pyUpper (reflect_node m s).critique_feedback = "APPROVED") :
    (reflect_node m s).final_output.isSome := by
  unfold reflect_node at h ⊢
  cases hms : m s <;> rw [hms] at h <;> simp only [] at h ⊢ <;>
    rw [if_pos h] <;> rfl

theorem reflectLoop_count_le (reflectM reviseM : ReflState → Option String) :
    ∀ fuel s, (reflectLoop reflectM reviseM fuel s).2 ≤
      MAX_REVISION_COUNT - s.revision_count := by
  intro fuel
  induction fuel with
  | zero => intro s; simp [reflectLoop]
  | succ f ih =>
    intro s
    unfold reflectLoop
    split
    · simp
    · rename_i hroute
      simp only []
      have hlt := route_not_end_lt s hroute
      have hrc : (reflect_node reflectM (revise_node reviseM s)).revision_count =
          s.revision_count + 1 := by
        rw [reflect_node_revision_count, revise_node_revision_count]
      have := ih (reflect_node reflectM (revise_node reviseM s))
      rw [hrc] at this
      omega

theorem reflectLoop_route_end (reflectM reviseM : ReflState → Option String) :
    ∀ fuel s, MAX_REVISION_COUNT ≤ fuel + s.revision_count →
      route_after_reflection (reflectLoop reflectM reviseM fuel s).1 = "end" := by
  intro fuel
  induction fuel with
  | zero =>
    intro s h
    simp only [reflectLoop]
    unfold route_after_reflection
    rw [if_pos (Or.inr (by omega))]
  | succ f ih =>
    intro s h
    unfold reflectLoop
    split
    · rename_i hroute
      exact hroute
    · simp only []
      have hrc : (reflect_node reflectM (revise_node reviseM s)).revision_count =
          s.revision_count + 1 := by
        rw [reflect_node_revision_count, revise_node_revision_count]
      exact ih _ (by omega)

theorem reflectLoop_final_isSome (reflectM reviseM : ReflState → Option String) :
    ∀ fuel s, s.final_output.isSome →
      (reflectLoop reflectM reviseM fuel s).1.final_output.isSome := by
  intro fuel
  induction fuel with
  | zero => intro s h; exact h
  | succ f ih =>
    intro s h
    unfold reflectLoop
    split
    · exact h
    · simp only []
      exact ih _ (reflect_node_final_isSome _ _ (revise_node_final_isSome _ _))

theorem reflectLoop_rc_eq (reflectM reviseM : ReflState → Option String) :
    ∀ fuel s, (reflectLoop reflectM reviseM fuel s).1.revision_count =
      s.revision_count + (reflectLoop reflectM reviseM fuel s).2 := by
  intro fuel
  induction fuel with
  | zero => intro s; rfl
  | succ f ih =>
    intro s
    unfold reflectLoop
    split
    · rfl
    · simp only []
      have hrc : (reflect_node reflectM (revise_node reviseM s)).revision_count =
          s.revision_count + 1 := by
        rw [reflect_node_revision_count, revise_node_revision_count]
      rw [ih, hrc]
      omega

/-- Claim C1: in the summarization graph, starting an invocation with the
revision counter at 0 (as every `_router_node` branch sets it) and no final
output yet, the reflect/revise loop — for arbitrary reflector and reviser
model behaviour and any sufficiently large fuel — executes `revise_node` at
most `MAX_REVISION_COUNT = 2` times, finishes with the reflection router
returning `"end"`, leaves the revision counter at most the maximum, and has
`final_output` set at that point. -/
theorem C1_revision_loop_bounded (reflectM reviseM : ReflState → Option String)
    (s0 : ReflState) (h0 : s0.revision_count = 0) (fuel : Nat)
    (hfuel : MAX_REVISION_COUNT ≤ fuel) :
    (reflectLoop reflectM reviseM fuel (reflect_node reflectM s0)).2 ≤ MAX_REVISION_COUNT ∧
    route_after_reflection
      (reflectLoop reflectM reviseM fuel (reflect_node reflectM s0)).1 = "end" ∧
    (reflectLoop reflectM reviseM fuel (reflect_node reflectM s0)).1.revision_count ≤
      MAX_REVISION_COUNT ∧
    (reflectLoop reflectM reviseM fuel
      (reflect_node reflectM s0)).1.final_output.isSome := by
  have hrc1 : (reflect_node reflectM s0).revision_count = 0 := by
    rw [reflect_node_revision_count, h0]
  have hcount := reflectLoop_count_le reflectM reviseM fuel (reflect_node reflectM s0)
  rw [hrc1, Nat.sub_zero] at hcount
  have hend := reflectLoop_route_end reflectM reviseM fuel (reflect_node reflectM s0)
    (by omega)
  have hrcf := reflectLoop_rc_eq reflectM reviseM fuel (reflect_node reflectM s0)
  refine ⟨hcount, hend, by omega, ?_⟩
  by_cases hr : route_after_reflection (reflect_node reflectM s0) = "end"
  · rcases route_end_cases _ hr with happ | hmax
    · rw [reflect_node_critique_stripped] at happ
      have hsome := reflect_node_approved_final reflectM s0 happ
      exact reflectLoop_final_isSome reflectM reviseM fuel _ hsome
    · rw [hrc1] at hmax
      exact absurd hmax (by decide)
  · cases fuel with
    | zero => exact absurd hfuel (by decide)
    | succ f =>
      unfold reflectLoop
      rw [if_neg hr]
      simp only []
      exact reflectLoop_final_isSome reflectM reviseM f _
        (reflect_node_final_isSome _ _ (revise_node_final_isSome _ _))

/-- Witness for C1 at a concrete reflector (critiques once, then approves
never — forcing the counter to the cap), reviser, and initial state. -/
theorem C1_revision_loop_bounded_witness :
    (reflectLoop (fun _ => some "needs work") (fun _ => some "revised") 2
      (reflect_node (fun _ => some "needs work")
        ⟨"orig", "focus", "draft", "", 0, none⟩)).2 ≤ MAX_REVISION_COUNT ∧
    route_after_reflection
      (reflectLoop (fun _ => some "needs work") (fun _ => some "revised") 2
        (reflect_node (fun _ => some "needs work")
          ⟨"orig", "focus", "draft", "", 0, none⟩)).1 = "end" ∧
    (reflectLoop (fun _ => some "needs work") (fun _ => some "revised") 2
      (reflect_node (fun _ => some "needs work")
        ⟨"orig", "focus", "draft", "", 0, none⟩)).1.revision_count ≤
      MAX_REVISION_COUNT ∧
    (reflectLoop (fun _ => some "needs work") (fun _ => some "revised") 2
      (reflect_node (fun _ => some "needs work")
        ⟨"orig", "focus", "draft", "", 0, none⟩)).1.final_output.isSome :=
  C1_revision_loop_bounded (fun _ => some "needs work") (fun _ => some "revised")
    ⟨"orig", "focus", "draft", "", 0, none⟩ rfl 2 (by decide)

/-- Claim C2: for every document whose estimated token count
(`len(text) // 4`) is strictly below 2000, `_router_node` takes the short-
document branch — strategy forced to the default `"MAP_REDUCE"`, no LLM
call — and `_route_after_router` then routes to `"direct"` (the
direct-summarize node). -/
theorem C2_short_doc_direct (llmPlan : String → Option (String × String × String))
    (text : String) (h : text.length / 4 < TOKEN_THRESHOLD_LONG) :
    (router_node llmPlan text).selected_strategy = "MAP_REDUCE" ∧
    (router_node llmPlan text).llm_called = false ∧
    route_after_router (router_node llmPlan text).doc_metadata = "direct" := by
  have htok : count_tokens text < TOKEN_THRESHOLD_LONG := by
    unfold count_tokens
    split
    · decide
    · exact h
  unfold router_node
  simp only [get_doc_metadata_tokens]
  rw [if_pos htok]
  refine ⟨rfl, rfl, ?_⟩
  unfold route_after_router
  rw [get_doc_metadata_tokens, if_pos htok]

/-- Witness for C2 on the five-character document `"hello"`. -/
theorem C2_short_doc_direct_witness :
    (router_node (fun _ => none) "hello").selected_strategy = "MAP_REDUCE" ∧
    (router_node (fun _ => none) "hello").llm_called = false ∧
    route_after_router (router_node (fun _ => none) "hello").doc_metadata =
      "direct" :=
  C2_short_doc_direct (fun _ => none) "hello" (by decide)

/-- Claim C3: for every document whose estimated token count is at least
50000, `_router_node` forces the `"HIERARCHICAL"` strategy and makes no LLM
call. -/
theorem C3_massive_doc_hierarchical
    (llmPlan : String → Option (String × String × String)) (text : String)
    (h : text.length / 4 ≥ TOKEN_THRESHOLD_MASSIVE) :
    (router_node llmPlan text).selected_strategy = "HIERARCHICAL" ∧
    (router_node llmPlan text).llm_called = false := by
  have hne : text ≠ "" := by
    intro hnil
    rw [hnil] at h
    exact absurd h (by decide)
  have htok : count_tokens text = text.length / 4 := by
    unfold count_tokens
    rw [if_neg hne]
  unfold router_node
  simp only [get_doc_metadata_tokens, htok]
  rw [if_neg (by
      have hm : TOKEN_THRESHOLD_MASSIVE = 50000 := rfl
      have hl : TOKEN_THRESHOLD_LONG = 2000 := rfl
      rw [hm] at h
      rw [hl]
      omega),
    if_pos h]
  exact ⟨rfl, rfl⟩

/-- Witness for C3 on a concrete 200000-character document
(50000 estimated tokens). -/
theorem C3_massive_doc_hierarchical_witness :
    (router_node (fun _ => none)
      ⟨List.replicate 200000 'a'⟩).selected_strategy = "HIERARCHICAL" ∧
    (router_node (fun _ => none) ⟨List.replicate 200000 'a'⟩).llm_called = false :=
  C3_massive_doc_hierarchical (fun _ => none) ⟨List.replicate 200000 'a'⟩ (by
    have hlen : (⟨List.replicate 200000 'a'⟩ : String).length = 200000 := by
      show (List.replicate 200000 'a').length = 200000
      rw [List.length_replicate]
    rw [hlen]
    decide)

/-- Claim C7: `count_tokens` returns `len(text) // 4` for every text (hence
0 for the empty string), and `get_doc_metadata ""` is the all-zero metadata
record (char_count, estimated_tokens, line_count, paragraph_count all 0). -/
theorem C7_count_tokens_and_empty_metadata :
    (∀ text : String, count_tokens text = text.length / 4) ∧
    get_doc_metadata "" = ⟨0, 0, 0, 0⟩ := by
  constructor
  · intro text
    unfold count_tokens
    split
    · rename_i hnil
      rw [hnil]
      rfl
    · rfl
  · rfl

/-! ## core/agents/base.py : the two-node tool loop

Messages carry their content and the tool calls the model requested; tool
and system messages have no tool calls.  The model is an abstract function
from the message list to the reply message; each registered tool is a
fallible function from its (serialised) arguments to a result string
(`.error` models a raised exception, caught per call by `take_action`). -/

/-- A tool-call request inside a model reply. -/
structure ToolCall where
  name : String
  id : String
  args : String
  deriving Repr

/-- A conversation message (`content` plus any requested tool calls). -/
structure AgentMessage where
  content : String
  tool_calls : List ToolCall
  deriving Repr

/-- `BaseAgent.call_model`: prepend the system message when one was given,
then invoke the model. -/
def call_model (model : List AgentMessage → AgentMessage) (system : String)
    (messages : List AgentMessage) : AgentMessage :=
  if system = "" then model messages
  else model ({ content := system, tool_calls := [] } :: messages)

/-- `BaseAgent.exists_action`: whether the last message carries tool calls. -/
def exists_action (messages : List AgentMessage) : Bool :=
  match messages.getLast? with
  | some m => m.tool_calls.length > 0
  | none => false

/-- `BaseAgent.take_action`: run the requested tool calls in order, mapping
an unknown name to the fixed retry string and a raised exception to an
error-content reply. -/
def take_action (tools : String → Option (String → Except String String))
    (tool_calls : List ToolCall) : List AgentMessage :=
  tool_calls.map fun t =>
    match tools t.name with
    | none => { content := "bad tool name, retry", tool_calls := [] }
    | some f =>
      match f t.args with
      | .ok r => { content := r, tool_calls := [] }
      | .error e => { content := "Exception: " ++ e, tool_calls := [] }

/-- The compiled graph of `BaseAgent`: `llm` node, conditional edge on
`exists_action` to `action` or END, and an unconditional edge back to `llm`.
`fuel` only caps the unfoldings so the model of the loop is total; the
repository's own wiring enforces no iteration limit, which is what claim C4
is about.  Returns `some finalMessages` if the loop reached END within
`fuel` iterations, `none` otherwise. -/
def agent_loop (model : List AgentMessage → AgentMessage)
    (tools : String → Option (String → Except String String)) (system : String) :
    Nat → List AgentMessage → Option (List AgentMessage)
  | 0, _ => none
  | fuel + 1, messages =>
    let reply := call_model model system messages
    let messages' := messages ++ [reply]
    if exists_action messages' then
      agent_loop model tools system fuel (messages' ++ take_action tools reply.tool_calls)
    else some messages'

theorem call_model_tool_calls (model : List AgentMessage → AgentMessage)
    (system : String) (messages : List AgentMessage)
    (hmodel : ∀ ms, (model ms).tool_calls ≠ []) :
    (call_model model system messages).tool_calls ≠ [] := by
  unfold call_model
  split <;> apply hmodel

/-- Claim C4: the `BaseAgent` two-node loop enforces no maximum iteration
count — against a model whose every reply contains at least one tool call,
the loop never reaches END, no matter how many iterations it is allowed to
run ("loops indefinitely"). -/
theorem C4_no_iteration_cap (model : List AgentMessage → AgentMessage)
    (tools : String → Option (String → Except String String)) (system : String)
    (hmodel : ∀ ms, (model ms).tool_calls ≠ []) :
    ∀ fuel messages, agent_loop model tools system fuel messages = none := by
  intro fuel
  induction fuel with
  | zero => intro messages; rfl
  | succ f ih =>
    intro messages
    unfold agent_loop
    have hne := call_model_tool_calls model system messages hmodel
    have hex : exists_action (messages ++ [call_model model system messages]) = true := by
      unfold exists_action
      rw [List.getLast?_concat]
      simpa using List.length_pos.mpr hne
    simp only []
    rw [if_pos hex]
    exact ih _

/-- Witness for C4: a concrete model that always requests one tool call,
an empty tool registry, and five available iterations. -/
theorem C4_no_iteration_cap_witness :
    agent_loop
      (fun _ => { content := "", tool_calls := [{ name := "t", id := "1", args := "" }] })
      (fun _ => none) "" 5 [] = none :=
  C4_no_iteration_cap _ _ _ (fun _ => List.cons_ne_nil _ _) 5 []

/-! ## core/agents/summarization.py : MAP_REDUCE strategy executor

The per-call LLM invocation is abstracted as
`llm : String → Except String String` from the formatted prompt to the reply
content; `.error e` models a raised exception with message `e`, caught per
chunk by the node. -/

/-- `SummarizationPrompts.MAP_PROMPT.format(summary_focus=…, chunk=…)`. -/
def MAP_PROMPT_format (summary_focus chunk : String) : String :=
  s!"You are summarizing a section of a larger document.\nStrictly adhere to the following summarization focus:\n\nSUMMARIZATION FOCUS:\n{summary_focus}\n\nTEXT SECTION:\n---\n{chunk}\n---\n\nProvide a focused summary of this section that aligns with the stated focus.\nExtract key information relevant to the goals. Be concise but comprehensive."

/-- `SummarizationPrompts.REDUCE_PROMPT.format(summary_focus=…,
chunk_summaries=…)`. -/
def REDUCE_PROMPT_format (summary_focus chunk_summaries : String) : String :=
  s!"You are combining multiple section summaries into a cohesive final summary.\n\nSUMMARIZATION FOCUS:\n{summary_focus}\n\nSECTION SUMMARIES:\n{chunk_summaries}\n\nCreate a unified, coherent summary that:\n1. Flows naturally without repetition\n2. Maintains the focus defined in the summarization goals\n3. Preserves all critical information from the section summaries\n4. Is well-structured with clear organization\n\nProvide the synthesized summary:"

/-- The inline error marker `f"[Chunk \x7bi + 1\x7d failed: \x7be\x7d]"`
substituted for a failed chunk summary. -/
def chunk_fail_msg (i : Nat) (e : String) : String :=
  s!"[Chunk {i + 1} failed: {e}]"

/-- The partial state update returned by `_map_reduce_node`. -/
structure MapReduceResult where
  chunk_summaries : List String
  draft_summary : String
  deriving Repr

/-- `SummarizationAgent._map_reduce_node`: the map phase summarizes every
chunk in order, substituting the inline error marker when the call raises;
the reduce phase combines the summaries, falling back to their plain
concatenation when the reduce call raises. -/
def map_reduce_node (llm : String → Except String String)
    (chunks : List String) (summary_focus : String) : MapReduceResult :=
  let chunk_summaries := chunks.enum.map fun p =>
    match llm (MAP_PROMPT_format summary_focus p.2) with
    | .ok content => content
    | .error e => chunk_fail_msg p.1 e
  let formatted := String.intercalate "\n\n" (chunk_summaries.enum.map fun p =>
    "Section " ++ toString (p.1 + 1) ++ ":\n" ++ p.2)
  let draft :=
    match llm (REDUCE_PROMPT_format summary_focus formatted) with
    | .ok content => content
    | .error _ => String.intercalate "\n\n" chunk_summaries
  ⟨chunk_summaries, draft⟩

/-- Claim C5: in the MAP_REDUCE executor, a raised exception while
summarizing any single chunk is caught and that chunk's summary is replaced
by the inline error marker, without aborting the map phase: the resulting
`chunk_summaries` has exactly one entry per input chunk (for any model
behaviour), and the entry at every failing index is the marker string.  The
node is total, so it always returns a `draft_summary`. -/
theorem C5_map_phase_error_isolation (llm : String → Except String String)
    (chunks : List String) (summary_focus : String) :
    (map_reduce_node llm chunks summary_focus).chunk_summaries.length =
      chunks.length ∧
    ∀ i c e, chunks[i]? = some c →
      llm (MAP_PROMPT_format summary_focus c) = .error e →
      (map_reduce_node llm chunks summary_focus).chunk_summaries[i]? =
        some (chunk_fail_msg i e) := by
  constructor
  · simp [map_reduce_node, List.enum_length]
  · intro i c e hget hllm
    simp only [map_reduce_node]
    rw [List.getElem?_map, List.getElem?_enum, hget]
    simp only [Option.map_some']
    rw [hllm]

/-- Witness for C5: one chunk, a model that always raises `"boom"`. -/
theorem C5_map_phase_error_isolation_witness :
    (map_reduce_node (fun _ => .error "boom") ["c"] "").chunk_summaries.length =
      (["c"] : List String).length ∧
    (map_reduce_node (fun _ => .error "boom") ["c"] "").chunk_summaries[0]? =
      some (chunk_fail_msg 0 "boom") :=
  ⟨(C5_map_phase_error_isolation (fun _ => .error "boom") ["c"] "").1,
    (C5_map_phase_error_isolation (fun _ => .error "boom") ["c"] "").2 0 "c" "boom"
      rfl rfl⟩

/-! ## core/tools/regex.py : replace_pattern_in_file

The filesystem is a map from path to optional content (`none` = no file;
`os.path.exists`/`os.path.isfile` both become a lookup).  Python's `re`
engine is external to the repository, so a compiled pattern is abstracted as
its substitution and match-listing functions, and a pattern that fails to
compile is `none`. -/

/-- A filesystem state: path to optional file content. -/
def FileSystem : Type := String → Option String

/-- An abstract compiled regex: `sub replacement content` models
`compiled_pattern.sub(replacement, content)` and `findall content` models
`compiled_pattern.findall(content)`. -/
structure PyPattern where
  sub : String → String → String
  findall : String → List String

/-- `s * n` for strings (Python `"=" * 70`). -/
def strRepeat (s : String) (n : Nat) : String :=
  String.join (List.replicate n s)

/-- The changed-line preview built in the dry-run branch: first 20 lines of
the old and new contents zipped, each differing pair shown as a `-`/`+`
couple. -/
def previewDiff (original_lines new_lines : List String) : String :=
  String.join (((original_lines.take 20).zip (new_lines.take 20)).filterMap fun p =>
    if p.1 ≠ p.2 then some ("- " ++ p.1 ++ "\n+ " ++ p.2 ++ "\n") else none)

/-- `replace_pattern_in_file(file_path, pattern, replacement, dry_run)`:
returns the (possibly updated) filesystem and the report string.  The file
is rewritten only in the non-dry-run branch after matches were found. -/
def replace_pattern_in_file (compile : Option PyPattern) (fs : FileSystem)
    (file_path pattern replacement : String) (dry_run : Bool) :
    FileSystem × String :=
  match fs file_path with
  | none => (fs, "✗ File not found: " ++ file_path)
  | some original_content =>
    match compile with
    | none => (fs, "✗ Invalid regex pattern: " ++ pattern)
    | some cp =>
      let new_content := cp.sub replacement original_content
      if original_content = new_content then
        (fs, "No matches found for pattern: " ++ pattern)
      else
        let change_count := (cp.findall original_content).length
        if dry_run then
          (fs,
            "[DRY RUN] Would replace " ++ toString change_count ++
            " occurrence(s)\nFile: " ++ file_path ++ "\n" ++ strRepeat "=" 70 ++
            "\nPattern: " ++ pattern ++ "\nReplacement: " ++ replacement ++
            "\n" ++ strRepeat "=" 70 ++ "\n\nPreview of changes:\n" ++
            strRepeat "-" 70 ++ "\n" ++
            previewDiff (original_content.splitOn "\n") (new_content.splitOn "\n") ++
            "\nTo apply changes, set dry_run=False")
        else
          (fun p => if p = file_path then some new_content else fs p,
            "✓ Successfully replaced " ++ toString change_count ++
            " occurrence(s) in file: " ++ file_path)

/-- Claim C6: `replace_pattern_in_file` with `dry_run=True` never changes
any file: for every filesystem, target path, compiled-or-invalid pattern and
replacement, the filesystem component of the result is exactly the input
filesystem — only a report string is produced. -/
theorem C6_dry_run_no_mutation (compile : Option PyPattern) (fs : FileSystem)
    (file_path pattern replacement : String) :
    (replace_pattern_in_file compile fs file_path pattern replacement true).1 = fs := by
  unfold replace_pattern_in_file
  cases fs file_path with
  | none => rfl
  | some original_content =>
    cases compile with
    | none => rfl
    | some cp =>
      simp only []
      split
      · rfl
      · rfl

/-! ## core/tools/regex.py : extract_pattern_matches -/

/-- The seen-set deduplication loop of `extract_pattern_matches` (the
variable `matches` of the source is `ms` here; Lean reserves that word):
walk the match list once, keeping a value only on its first appearance (the
Python `set` is modelled as the list of already-seen values, the output
list is extended in order). -/
def uniqueMatches (ms : List String) : List String :=
  (ms.foldl
    (fun acc m => if m ∈ acc.1 then acc else (m :: acc.1, acc.2 ++ [m]))
    (([], []) : List String × List String)).2

/-- Recursive form of the same loop, carrying the seen set explicitly. -/
def dedupSkip (seen : List String) : List String → List String
  | [] => []
  | m :: rest =>
    if m ∈ seen then dedupSkip seen rest else m :: dedupSkip (m :: seen) rest

/-- Written from the spec's words, as a refinement target: the deduplicated
list keeps exactly each value's first occurrence, in the order those first
occurrences appear. -/
def specFirstOccurrenceDedup (l : List String) : List String :=
  match l with
  | [] => []
  | a :: t => a :: specFirstOccurrenceDedup (t.filter fun x => x ≠ a)
termination_by l.length
decreasing_by
  simp only [List.length_cons]
  exact Nat.lt_succ_of_le (List.length_filter_le _ _)

/-- Python `str.rjust` / the `>` width format specifier (space padding). -/
def pyRjust (s : String) (width : Nat) : String :=
  strRepeat " " (width - s.length) ++ s

/-- `extract_pattern_matches(text, pattern, group_number)` with the regex
engine abstracted: `compile` is the compiled pattern (`none` on `re.error`),
`groupMatches g text` the group-`g` extraction of the `finditer` branch. -/
def extract_pattern_matches (compile : Option PyPattern)
    (groupMatches : Nat → String → List String)
    (text pattern : String) (group_number : Nat) : String :=
  match compile with
  | none => "✗ Invalid regex pattern: " ++ pattern
  | some cp =>
    let ms :=
      if group_number = 0 then cp.findall text else groupMatches group_number text
    if ms = [] then "No matches found for pattern: " ++ pattern
    else
      let unique_matches := uniqueMatches ms
      "Extracted " ++ toString unique_matches.length ++ " unique match(es) from " ++
        toString ms.length ++ " total match(es)\nPattern: " ++ pattern ++
        "\n" ++ strRepeat "=" 70 ++ "\n" ++
        String.join (unique_matches.enum.map fun p =>
          pyRjust (toString (p.1 + 1)) 3 ++ ". " ++ p.2 ++ "\n")

theorem foldl_dedup_eq_dedupSkip (l : List String) : ∀ seen out : List String,
    (l.foldl (fun acc m => if m ∈ acc.1 then acc else (m :: acc.1, acc.2 ++ [m]))
      (seen, out)).2 = out ++ dedupSkip seen l := by
  induction l with
  | nil => intro seen out; simp [dedupSkip]
  | cons m rest ih =>
    intro seen out
    rw [List.foldl_cons]
    by_cases h : m ∈ seen
    · simp only [if_pos h]
      rw [ih seen out]
      simp [dedupSkip, h]
    · simp only [if_neg h]
      rw [ih (m :: seen) (out ++ [m])]
      simp [dedupSkip, h]

theorem dedupSkip_eq_spec : ∀ l seen : List String,
    dedupSkip seen l = specFirstOccurrenceDedup (l.filter fun x => x ∉ seen) := by
  intro l
  induction l with
  | nil => intro seen; simp [dedupSkip, specFirstOccurrenceDedup]
  | cons m rest ih =>
    intro seen
    by_cases h : m ∈ seen
    · simp only [dedupSkip, if_pos h, List.filter_cons]
      rw [if_neg (by simp [h])]
      exact ih seen
    · simp only [dedupSkip, if_neg h, List.filter_cons]
      rw [if_pos (by simp [h])]
      simp only [specFirstOccurrenceDedup]
      congr 1
      rw [ih (m :: seen), List.filter_filter]
      congr 1
      apply List.filter_congr
      intro x _
      by_cases h1 : x = m <;> by_cases h2 : x ∈ seen <;>
        simp [h1, h2, List.mem_cons]

theorem dedupSkip_nodup_and_fresh : ∀ l seen : List String,
    (dedupSkip seen l).Nodup ∧ ∀ x ∈ dedupSkip seen l, x ∉ seen := by
  intro l
  induction l with
  | nil =>
    intro seen
    exact ⟨List.nodup_nil, by intro x hx; simp [dedupSkip] at hx⟩
  | cons m rest ih =>
    intro seen
    by_cases h : m ∈ seen
    · simp only [dedupSkip, if_pos h]
      exact ih seen
    · simp only [dedupSkip, if_neg h]
      obtain ⟨hnd, hmem⟩ := ih (m :: seen)
      constructor
      · exact List.nodup_cons.mpr
          ⟨fun hm => (hmem m hm) (List.mem_cons_self ..), hnd⟩
      · intro x hx
        rcases List.mem_cons.mp hx with rfl | hx'
        · exact h
        · intro hxs
          exact hmem x hx' (List.mem_cons_of_mem _ hxs)

theorem uniqueMatches_eq_dedupSkip (ms : List String) :
    uniqueMatches ms = dedupSkip [] ms := by
  unfold uniqueMatches
  rw [foldl_dedup_eq_dedupSkip ms [] []]
  exact List.nil_append _

/-- Claim C8: the match list reported by `extract_pattern_matches` is
deduplicated preserving first-occurrence order — for every raw match list it
equals the keep-the-first-occurrence reference function and contains no
duplicates — and on a text containing `"support@example.com"` twice (an
email pattern matching both occurrences) exactly one unique match remains. -/
theorem C8_dedup_first_occurrence :
    (∀ ms : List String,
      uniqueMatches ms = specFirstOccurrenceDedup ms ∧
      (uniqueMatches ms).Nodup) ∧
    uniqueMatches ["support@example.com", "support@example.com"] =
      ["support@example.com"] := by
  constructor
  · intro ms
    constructor
    · rw [uniqueMatches_eq_dedupSkip, dedupSkip_eq_spec]
      congr 1
      simp
    · rw [uniqueMatches_eq_dedupSkip]
      exact (dedupSkip_nodup_and_fresh ms []).1
  · rw [uniqueMatches_eq_dedupSkip]
    decide

/-! ## core/tools/math.py

Python floats are modelled as exact rationals; the arguments in the claim
(45, 23, 10, 0) and their sum are exactly representable IEEE doubles, so the
model agrees with the Python runtime on them. -/

/-- `add_numbers(a, b)`. -/
def add_numbers (a b : ℚ) : ℚ := a + b

/-- `divide_numbers(a, b)`: raises `ValueError("Cannot divide by zero")`
when `b == 0`, modelled as `.error` with that message. -/
def divide_numbers (a b : ℚ) : Except String ℚ :=
  if b = 0 then .error "Cannot divide by zero" else .ok (a / b)

/-- Claim C9: `add_numbers 45 23 = 68.0`, and `divide_numbers a b` signals
the divide-by-zero error exactly when `b = 0`, returning the quotient
`a / b` for every `b ≠ 0`. -/
theorem C9_math_tools :
    add_numbers 45 23 = 68 ∧
    ∀ a b : ℚ,
      (divide_numbers a b = .error "Cannot divide by zero" ↔ b = 0) ∧
      (b ≠ 0 → divide_numbers a b = .ok (a / b)) := by
  constructor
  · norm_num [add_numbers]
  · intro a b
    constructor
    · constructor
      · intro h
        by_contra hb
        unfold divide_numbers at h
        rw [if_neg hb] at h
        exact absurd h (by simp)
      · intro hb
        unfold divide_numbers
        rw [if_pos hb]
    · intro hb
      unfold divide_numbers
      rw [if_neg hb]

/-- Witness for C9 at `divide_numbers(10, 0)` and `divide_numbers(10, 2)`. -/
theorem C9_math_tools_witness :
    divide_numbers 10 0 = .error "Cannot divide by zero" ∧
    divide_numbers 10 2 = .ok 5 ∧
    add_numbers 45 23 = 68 := by
  refine ⟨((C9_math_tools.2 10 0).1).mpr rfl, ?_, C9_math_tools.1⟩
  have h := (C9_math_tools.2 10 2).2 (by norm_num)
  rw [h]
  norm_num

/-! ## core/tools/document_io.py : edit_document

The working-directory filesystem maps a file name to the file's lines (as
produced by `readlines`, each keeping its newline); `none` is a missing
file, whose `open` raises an uncaught `FileNotFoundError` (modelled as the
`none` result of `edit_document`).  The `inserts` dict becomes an
association list; `sorted(inserts.items())` becomes an insertion sort on
the (distinct, since they are dict keys) integer line numbers. -/

/-- A working-directory filesystem: file name to lines. -/
def LinesFS : Type := String → Option (List String)

/-- Python `list.insert(i, x)` for `i ≤ len(l)`. -/
def pyInsert (l : List String) (i : Nat) (x : String) : List String :=
  l.take i ++ x :: l.drop i

/-- Insert one keyed pair into an ascending list (insertion-sort step). -/
def insertOrdered (x : Int × String) : List (Int × String) → List (Int × String)
  | [] => [x]
  | y :: t => if x.1 ≤ y.1 then x :: y :: t else y :: insertOrdered x t

/-- `sorted(inserts.items())` (ascending line numbers). -/
def sortInserts : List (Int × String) → List (Int × String)
  | [] => []
  | x :: t => insertOrdered x (sortInserts t)

/-- The insertion loop of `edit_document`: each in-range insert (1-indexed,
at most one past the current number of lines) is applied to the mutating
line list; the first out-of-range line number aborts with the error
string. -/
def applyInserts : List String → List (Int × String) → Except String (List String)
  | lines, [] => .ok lines
  | lines, (line_number, text) :: rest =>
    if 1 ≤ line_number ∧ line_number ≤ lines.length + 1 then
      applyInserts (pyInsert lines (line_number - 1).toNat (text ++ "\n")) rest
    else
      .error ("Error: Line number " ++ toString line_number ++ " is out of range.")

/-- `edit_document(file_name, inserts)`: on success, write the lines back
and report; on an out-of-range insert, return the error string with the
file untouched (the write only happens after the whole loop). -/
def edit_document (fs : LinesFS) (file_name : String)
    (inserts : List (Int × String)) : Option (LinesFS × String) :=
  match fs file_name with
  | none => none
  | some lines =>
    match applyInserts lines (sortInserts inserts) with
    | .error e => some (fs, e)
    | .ok new_lines =>
      some (fun p => if p = file_name then some new_lines else fs p,
        "Document edited and saved to " ++ file_name)

/-- Validity of a sorted insert list against a current line count: each
line number is between 1 and one past the count at the time that insert is
applied (each applied insert grows the count by one). -/
def insertsValid (n : Nat) : List (Int × String) → Bool
  | [] => true
  | (line_number, _) :: rest =>
    decide (1 ≤ line_number ∧ line_number ≤ n + 1) && insertsValid (n + 1) rest

theorem pyInsert_length (l : List String) (i : Nat) (x : String) (h : i ≤ l.length) :
    (pyInsert l i x).length = l.length + 1 := by
  unfold pyInsert
  simp [List.length_take, List.length_drop]
  omega

theorem applyInserts_cases : ∀ (ins : List (Int × String)) (lines : List String),
    (insertsValid lines.length ins = false →
      ∃ ln : Int, applyInserts lines ins =
        .error ("Error: Line number " ++ toString ln ++ " is out of range.")) ∧
    (insertsValid lines.length ins = true →
      ∃ r, applyInserts lines ins = .ok r) := by
  intro ins
  induction ins with
  | nil =>
    intro lines
    constructor
    · intro h
      exact absurd h (by simp [insertsValid])
    · intro _
      exact ⟨lines, rfl⟩
  | cons p rest ih =>
    intro lines
    obtain ⟨ln, text⟩ := p
    by_cases hc : 1 ≤ ln ∧ ln ≤ lines.length + 1
    · have hlen : (pyInsert lines (ln - 1).toNat (text ++ "\n")).length =
          lines.length + 1 :=
        pyInsert_length _ _ _ (by omega)
      have hvalid : insertsValid lines.length ((ln, text) :: rest) =
          insertsValid (lines.length + 1) rest := by
        simp [insertsValid, hc]
      have happ : applyInserts lines ((ln, text) :: rest) =
          applyInserts (pyInsert lines (ln - 1).toNat (text ++ "\n")) rest := by
        simp [applyInserts, hc]
      have := ih (pyInsert lines (ln - 1).toNat (text ++ "\n"))
      rw [hlen] at this
      rw [hvalid, happ]
      exact this
    · have hvalid : insertsValid lines.length ((ln, text) :: rest) = false := by
        simp [insertsValid, hc]
      have happ : applyInserts lines ((ln, text) :: rest) =
          .error ("Error: Line number " ++ toString ln ++ " is out of range.") := by
        simp [applyInserts, hc]
      constructor
      · intro _
        exact ⟨ln, happ⟩
      · intro h
        rw [hvalid] at h
        exact absurd h (by simp)

/-- Claim C10: `edit_document` is atomic with respect to errors — for an
existing file, if the ascending-order insert sequence contains an insert
whose 1-indexed line number is out of range at the moment it is applied,
the function returns the out-of-range error string and leaves the
filesystem exactly as it was; otherwise every insert is applied and the
file alone is rewritten with the fully-inserted lines. -/
theorem C10_edit_document_atomic (fs : LinesFS) (file_name : String)
    (inserts : List (Int × String)) (lines : List String)
    (hfile : fs file_name = some lines) :
    (insertsValid lines.length (sortInserts inserts) = false →
      ∃ ln : Int, edit_document fs file_name inserts =
        some (fs, "Error: Line number " ++ toString ln ++ " is out of range.")) ∧
    (insertsValid lines.length (sortInserts inserts) = true →
      ∃ new_lines, applyInserts lines (sortInserts inserts) = .ok new_lines ∧
        edit_document fs file_name inserts =
          some (fun p => if p = file_name then some new_lines else fs p,
            "Document edited and saved to " ++ file_name)) := by
  obtain ⟨herr, hok⟩ := applyInserts_cases (sortInserts inserts) lines
  constructor
  · intro hinvalid
    obtain ⟨ln, happ⟩ := herr hinvalid
    refine ⟨ln, ?_⟩
    unfold edit_document
    rw [hfile]
    simp only []
    rw [happ]
  · intro hvalid
    obtain ⟨r, happ⟩ := hok hvalid
    refine ⟨r, happ, ?_⟩
    unfold edit_document
    rw [hfile]
    simp only []
    rw [happ]

/-- Witness for C10 on a concrete two-line file with one in-range insert. -/
theorem C10_edit_document_atomic_witness :
    (insertsValid (["a\n", "b\n"] : List String).length
        (sortInserts [((2 : Int), "x")]) = false →
      ∃ ln : Int,
        edit_document
          (fun p => if p = "doc.txt" then some ["a\n", "b\n"] else none)
          "doc.txt" [((2 : Int), "x")] =
        some ((fun p => if p = "doc.txt" then some ["a\n", "b\n"] else none),
          "Error: Line number " ++ toString ln ++ " is out of range.")) ∧
    (insertsValid (["a\n", "b\n"] : List String).length
        (sortInserts [((2 : Int), "x")]) = true →
      ∃ new_lines,
        applyInserts ["a\n", "b\n"] (sortInserts [((2 : Int), "x")]) =
          .ok new_lines ∧
        edit_document
          (fun p => if p = "doc.txt" then some ["a\n", "b\n"] else none)
          "doc.txt" [((2 : Int), "x")] =
        some ((fun p => if p = "doc.txt" then some new_lines else
            (fun q => if q = "doc.txt" then some ["a\n", "b\n"] else none) p),
          "Document edited and saved to " ++ "doc.txt")) :=
  C10_edit_document_atomic
    (fun p => if p = "doc.txt" then some ["a\n", "b\n"] else none)
    "doc.txt" [((2 : Int), "x")] ["a\n", "b\n"] rfl
